import Mathlib

/-!
Shallow embedding of `sim/shared_yfrac.py` (population / cell generation and
probabilistic connectivity of the cortical microcircuit generator), together
with theorems settling the specification claims about it.

Floating-point numbers are idealized as elements of a linear ordered field
`K`; the generation side is fully computable and is instantiated at `ℚ` for
concrete evaluations, the connectivity side is instantiated at `ℝ` with
`Real.sqrt` / `Real.exp` for the geometric and falloff computations.

The pseudo-random generator (`pylab.seed` / `pylab.rand`) is external library
code; it is modelled as an abstract deterministic stream: `seed(k)` followed
by successive `rand()` draws is the sequence `u 0, u 1, ...` of a stream
`u : ℕ → K` attached to the seed key `k`.  The hash `id32` applied to the
decimal rendering of an integer is injective on the keys used here, so seed
keys are represented directly by the hashed integer.
-/

set_option linter.unusedSectionVars false

deriving instance DecidableEq for Except

namespace SharedYfrac

/-! ### Label registry (class `Labels` in the source)

Receptor axis: AMPA=0, NMDA=1, GABAA=2, GABAB=3, opsin=4 (numReceptors=5).
Excitability axis: E=0, I=1.  Top-class axis: IT=0, PT=1, CT=2, HTR=3,
Pva=4, Sst=5 (numTopClass=6). -/

def AMPA : Fin 5 := 0
def NMDA : Fin 5 := 1
def GABAA : Fin 5 := 2
def GABAB : Fin 5 := 3
def opsin : Fin 5 := 4

def E : Fin 2 := 0
def I : Fin 2 := 1

def IT : Fin 6 := 0
def PT : Fin 6 := 1
def CT : Fin 6 := 2
def HTR : Fin 6 := 3
def Pva : Fin 6 := 4
def Sst : Fin 6 := 5

/-! ### Cell and population records -/

/-- A generated neuron descriptor (class `Cell`); the NEURON-side state
(`self.m`, `self.dummy`, netcon registration) is out of scope, the gid
registration side effect (`associateGid` appending to `s.gidVec`) is made
explicit in `createCells`. -/
structure Cell (K : Type) where
  gid : ℕ
  popid : ℕ
  EorI : Fin 2
  topClass : Fin 6
  subClass : ℕ
  yfrac : K
  xloc : K
  zloc : K
deriving DecidableEq

/-- A population (class `Pop`).  `vectorizedDensity` records a fact about the
Python density lambda that the embedding cannot recover from `density : K → K`
alone: whether the lambda, applied to a length-1 numpy array, returns an array
(true for arithmetic lambdas such as `lambda x: 2e3*x`, which is the form of
the excitatory populations in the source) or a plain scalar (true for constant
lambdas such as `lambda x: 0.5e3`).  The shape of `yfracsProb`, and with it the
acceptance test in `createCells`, depends on exactly this distinction. -/
structure Pop (K : Type) where
  popgid : ℕ
  EorI : Fin 2
  topClass : Fin 6
  subClass : ℕ
  yfracLo : K
  yfracHi : K
  density : K → K
  vectorizedDensity : Bool

/-- The global simulation parameters read by `Pop.createCells`. -/
structure SimConfig (K : Type) where
  scale : K
  sparseness : K
  modelsize : K
  corticalthick : K

/-- Errors surfaced by the generation code: `max()` of an empty sequence
(empty `arange` grid) and `rand(n, 1)` with a negative `n`. -/
inductive GenError where
  | emptyRange
  | negativeDraws
deriving DecidableEq

variable {K : Type} [LinearOrderedField K]

/-- Exception propagation of a Python statement sequence: evaluate `e`, and
when it did not raise, continue with its value. -/
def bindE {ε α β : Type} : Except ε α → (α → Except ε β) → Except ε β
  | .error e2, _ => .error e2
  | .ok a, f => f a


/-- `arange(lo, hi, step)` for a positive step: the values
`lo, lo+step, ...` strictly below `hi` (idealized to exact arithmetic). -/
def arange [FloorRing K] (lo hi step : K) : List K :=
  (List.range ⌈(hi - lo) / step⌉₊).map (fun k => lo + (k : K) * step)

/-- `volume = s.scale*s.sparseness*(s.modelsize/1e3)**2
*((yfracRange[1]-yfracRange[0])*s.corticalthick/1e3)`. -/
def volumeOf (s : SimConfig K) (p : Pop K) : K :=
  s.scale * s.sparseness * (s.modelsize / 1000) ^ 2 *
    ((p.yfracHi - p.yfracLo) * s.corticalthick / 1000)

/-- `maxDensity = max(map(self.density, arange(lo, hi, 0.001)))`; `none` when
the grid is empty (Python `max` raises on an empty sequence). -/
def maxDensityOf [FloorRing K] (p : Pop K) : Option K :=
  ((arange p.yfracLo p.yfracHi (1 / 1000)).map p.density).max?

/-- The candidate depth fractions
`yfracsAll = lo + (hi-lo) * rand(int(maxCells), 1)`, consuming draws
`u 0, ..., u (n-1)` of the seeded stream. -/
def candYfracs (p : Pop K) (u : ℕ → K) (n : ℕ) : List K :=
  (List.range n).map (fun i => p.yfracLo + (p.yfracHi - p.yfracLo) * u i)

/-- `yfracsProb = array(map(self.density, yfracsAll)) / maxDensity`. -/
def candProbs (p : Pop K) (u : ℕ → K) (n : ℕ) (maxDensity : K) : List K :=
  (candYfracs p u n).map (fun y => p.density y / maxDensity)

/-- Acceptance when `yfracsProb` has shape `(n,)` (scalar-returning density):
`yfracsProb > allrands` is the elementwise paired comparison, candidate `i`
is kept iff its probability beats its own draw `u (n + i)`. -/
def acceptedIdxPaired (probs : List K) (u : ℕ → K) (n : ℕ) : List ℕ :=
  (List.range n).filter (fun i => decide (probs.getD i 0 > u (n + i)))

/-- Acceptance when `yfracsProb` has shape `(n,1)` (array-returning density):
numpy broadcasts `(n,1) > (n,)` to an `n × n` comparison matrix, and
`i in makethiscell.nonzero()[0]` then holds iff row `i` contains any `True`,
i.e. iff the probability of candidate `i` beats SOME draw. -/
def acceptedIdxBroadcast (probs : List K) (u : ℕ → K) (n : ℕ) : List ℕ :=
  (List.range n).filter
    (fun i => (List.range n).any (fun j => decide (probs.getD i 0 > u (n + j))))

/-- `makethiscell` and the pruning comprehension: the accepted candidate
indices, in draw order.  Which comparison numpy performs depends on the shape
of `yfracsProb` (see `Pop.vectorizedDensity`). -/
def acceptedOf (p : Pop K) (u : ℕ → K) (n : ℕ) (maxDensity : K) : List ℕ :=
  if p.vectorizedDensity then acceptedIdxBroadcast (candProbs p u n maxDensity) u n
  else acceptedIdxPaired (candProbs p u n maxDensity) u n

/-- `yfracs`: the accepted candidate depth fractions, in draw order. -/
def acceptedYfracs (p : Pop K) (u : ℕ → K) (n : ℕ) (maxDensity : K) : List K :=
  (acceptedOf p u n maxDensity).map (fun i => (candYfracs p u n).getD i 0)

/-- `lastGid = s.gidVec[-1]+1 if s.gidVec else 0`: derived from the
PARTITION-LOCAL gid vector. -/
def lastGidOf (gidVec : List ℕ) : ℕ :=
  match gidVec.getLast? with
  | some g => g + 1
  | none => 0

/-- `xrange(rank, numCells, nhosts)`: the generation indices materialized on
this partition. -/
def localIdxOf (rank nhosts numCells : ℕ) : List ℕ :=
  (List.range numCells).filter
    (fun i => decide (rank ≤ i) && decide ((i - rank) % nhosts = 0))

/-- The `Cell` constructed for generation index `i`: gid `lastGid + i`, the
accepted depth fraction `yfracs[i]`, and `randLocs` positions scaled by
`modelsize` (row-major draws following the `2n` candidate/acceptance draws). -/
def mkCell (s : SimConfig K) (p : Pop K) (u : ℕ → K) (n lastGid i : ℕ)
    (yfracs : List K) : Cell K :=
  { gid := lastGid + i, popid := p.popgid, EorI := p.EorI,
    topClass := p.topClass, subClass := p.subClass,
    yfrac := yfracs.getD i 0,
    xloc := s.modelsize * u (2 * n + 2 * i),
    zloc := s.modelsize * u (2 * n + 2 * i + 1) }

/-- The cells materialized on this partition. -/
def madeCells (s : SimConfig K) (p : Pop K) (rank nhosts : ℕ) (gidVec : List ℕ)
    (u : ℕ → K) (n : ℕ) (maxDensity : K) : List (Cell K) :=
  (localIdxOf rank nhosts (acceptedYfracs p u n maxDensity).length).map
    (fun i => mkCell s p u n (lastGidOf gidVec) i (acceptedYfracs p u n maxDensity))

/-- `max()` of an empty sequence raises. -/
def maxOrErr (o : Option K) : Except GenError K :=
  match o with
  | none => .error .emptyRange
  | some m => .ok m

/-- `Pop.createCells`.  Arguments: global config `s`, this partition's
`rank` and the partition count `nhosts`, the partition-local `s.gidVec`
accumulated so far, the uniform stream `u` obtained by
`seed(id32('%d' % randseed))` (identical on every partition and for every
population, since `randseed` is global), and the population.  Returns the
locally materialized cells, `lastGid + numCells`, and the updated `gidVec`
(each created cell appends its gid via `associateGid`).  The per-population
`self.cellGids` bookkeeping duplicates the gids of the created cells and is
omitted.  Draw layout: candidates use `u 0..n-1`, `allrands` uses
`u n..2n-1`, `randLocs` (row-major `numCells × 2`) uses `u (2n+2i+j)`.
`rand(int(maxCells), 1)` raises when `int(maxCells) < 0`, i.e. when
`maxCells ≤ -1` (Python `int` truncates toward zero); otherwise the candidate
count is `⌊maxCells⌋`. -/
def createCells [FloorRing K] (s : SimConfig K) (rank nhosts : ℕ) (gidVec : List ℕ)
    (u : ℕ → K) (p : Pop K) :
    Except GenError (List (Cell K) × ℕ × List ℕ) :=
  bindE (maxOrErr (maxDensityOf p)) (fun maxDensity =>
    if volumeOf s p * maxDensity ≤ -1 then .error .negativeDraws
    else
      .ok (madeCells s p rank nhosts gidVec u (⌊volumeOf s p * maxDensity⌋).toNat maxDensity,
        lastGidOf gidVec +
          (acceptedYfracs p u (⌊volumeOf s p * maxDensity⌋).toNat maxDensity).length,
        gidVec ++ (madeCells s p rank nhosts gidVec u
          (⌊volumeOf s p * maxDensity⌋).toNat maxDensity).map Cell.gid))

/-- Driving `createCells` over successive populations, threading the
partition-local `gidVec` state from one call to the next (each call reseeds
from the same global `randseed`, hence reuses the same stream `u`). -/
def createCellsSeq [FloorRing K] (s : SimConfig K) (rank nhosts : ℕ) (u : ℕ → K) :
    List (Pop K) → List ℕ → Except GenError (List (List (Cell K)) × List ℕ)
  | [], gidVec => .ok ([], gidVec)
  | p :: ps, gidVec =>
    bindE (createCells s rank nhosts gidVec u p) (fun r =>
      bindE (createCellsSeq s rank nhosts u ps r.2.2) (fun rest =>
        .ok (r.1 :: rest.1, rest.2)))

/-! ### Concrete generation-side inputs for evaluations (over `ℚ`) -/

/-- Global parameters for the concrete runs: scale 1, sparseness 1,
modelsize 1000, corticalthick 1000 (so the volume of a population is just its
depth-range width). -/
def sQ : SimConfig ℚ := { scale := 1, sparseness := 1, modelsize := 1000, corticalthick := 1000 }

/-- A uniform stream constantly 1/2 (each draw lies in [0,1)). -/
def uQ : ℕ → ℚ := fun _ => 1 / 2

/-- First concrete population: depth range [0.5, 0.503), constant density
1000 (a scalar-returning lambda), so maxCells = 3 and all three candidates
are accepted under `uQ`. -/
def popP : Pop ℚ :=
  { popgid := 0, EorI := E, topClass := IT, subClass := 1,
    yfracLo := 1 / 2, yfracHi := 1 / 2 + 3 / 1000,
    density := fun _ => 1000, vectorizedDensity := false }

/-- Second concrete population: depth range [0.5, 0.502), constant density
1000, so maxCells = 2 and both candidates are accepted under `uQ`. -/
def popQ : Pop ℚ :=
  { popgid := 1, EorI := E, topClass := IT, subClass := 1,
    yfracLo := 1 / 2, yfracHi := 1 / 2 + 2 / 1000,
    density := fun _ => 1000, vectorizedDensity := false }

/-- A population whose density is negative at the sampled depth 0.1 but
positive (1000) at the rest of the grid. -/
def popNeg : Pop ℚ :=
  { popgid := 2, EorI := E, topClass := IT, subClass := 1,
    yfracLo := 1 / 10, yfracHi := 1 / 10 + 3 / 1000,
    density := fun x => if x < 101 / 1000 then -100 else 1000,
    vectorizedDensity := false }

/-- A population whose density is negative on the whole grid. -/
def popAllNeg : Pop ℚ :=
  { popgid := 3, EorI := E, topClass := IT, subClass := 1,
    yfracLo := 1 / 2, yfracHi := 1 / 2 + 3 / 1000,
    density := fun _ => -1000, vectorizedDensity := false }

/-- Global parameters for the broadcast-acceptance run: corticalthick 5000/7
makes the volume of a width-0.002 range equal 1/700, so maxCells = 2 with the
affine density below. -/
def sV : SimConfig ℚ :=
  { scale := 1, sparseness := 1, modelsize := 1000, corticalthick := 5000 / 7 }

/-- Stream for the broadcast-acceptance run: candidate draws 1/2 and 1/4,
acceptance draws 1/2 and 1/10, then 1/2. -/
def uC : ℕ → ℚ := fun n =>
  if n = 0 then 1 / 2 else if n = 1 then 1 / 4
  else if n = 2 then 1 / 2 else if n = 3 then 1 / 10 else 1 / 2

/-- Population with an affine (array-returning) density, the same shape as
the source's `lambda x: 2e3*x` populations: density 501400 - 10^6 x on
[0.5, 0.502).  Sampled max is 1400 (at depth 0.5); the two candidates drawn
under `uC` have acceptance probabilities 2/7 and 9/14. -/
def popV : Pop ℚ :=
  { popgid := 4, EorI := E, topClass := IT, subClass := 1,
    yfracLo := 1 / 2, yfracHi := 1 / 2 + 2 / 1000,
    density := fun x => 501400 - 1000000 * x, vectorizedDensity := true }

/-! ### Connectivity engine (class `Conn`)

`connProbs` is built in the source as `[[(lambda x: 0)]*l.numTopClass]*l.numTopClass`:
the outer `*` replicates six REFERENCES to one and the same inner list, so the
twenty-five subsequent item assignments `connProbs[a][b] = f` all mutate that
single shared row at column `b`.  The resulting table is constant in its first
index: entry `(a, b)` is the function of the LAST assignment whose column is
`b` (regardless of `a`), and columns never assigned keep the one-argument
default `lambda x: 0`, which raises a `TypeError` when called with two
arguments.  `connWeights` has the same aliasing one level deeper: all
thirty-six `(a, b)` slots share one receptor row of length `numReceptors`. -/

/-- A stored probability-table entry: the one-argument default lambda or an
assigned two-argument lambda. -/
inductive PEntry (K : Type) where
  | unary (f : K → K)
  | binary (f : K → K → K)

/-- Errors surfaced by `Conn.connect`: calling a one-argument lambda with two
arguments (unassigned probability column), and numpy fancy/scalar indexing out
of bounds. -/
inductive ConnErr where
  | typeError
  | indexError
deriving DecidableEq

/-- Calling a stored entry with the two depth fractions, as
`connProbs[pre.topClass][post.topClass](pre.yfrac, post.yfrac)` does. -/
def callProb : PEntry K → K → K → Except ConnErr K
  | .unary _, _, _ => .error .typeError
  | .binary f, x, y => .ok (f x y)

/-- The twenty-five `connProbs[a][b] = f` item assignments, in source order. -/
def probAssignments : List (Fin 6 × Fin 6 × (K → K → K)) :=
  [ (IT, IT, fun x y => (1 / 10) * x + (1 / 10) / y),
    (IT, PT, fun x _ => if x > 1 / 2 ∧ x < 4 / 5 then (1 / 5) * x else 0),
    (IT, CT, fun _ _ => 1),
    (IT, Pva, fun _ _ => 1),
    (IT, Sst, fun _ _ => 1),
    (PT, IT, fun _ _ => 0),
    (PT, PT, fun _ _ => 1),
    (PT, CT, fun _ _ => 0),
    (PT, Pva, fun _ _ => 1),
    (PT, Sst, fun _ _ => 1),
    (CT, IT, fun _ _ => 1),
    (CT, PT, fun _ _ => 0),
    (CT, CT, fun _ _ => 1),
    (CT, Pva, fun _ _ => 1),
    (CT, Sst, fun _ _ => 1),
    (Pva, IT, fun _ _ => 1),
    (Pva, PT, fun _ _ => 1),
    (Pva, CT, fun _ _ => 1),
    (Pva, Pva, fun _ _ => 1),
    (Pva, Sst, fun _ _ => 1),
    (Sst, IT, fun _ _ => 1),
    (Sst, PT, fun _ _ => 1),
    (Sst, CT, fun _ _ => 1),
    (Sst, Pva, fun _ _ => 1),
    (Sst, Sst, fun _ _ => 1) ]

/-- The `connProbs` class variable after all assignments.  Because every row
aliases the same list, an assignment `(a, b, f)` updates the shared row at
column `b`; the lookup ignores the row index `a`. -/
def connProbs : Fin 6 → Fin 6 → PEntry K := fun _a b =>
  ((probAssignments (K := K)).foldl
    (fun (row : Fin 6 → PEntry K) e => Function.update row e.2.1 (PEntry.binary e.2.2))
    (fun _ : Fin 6 => (PEntry.unary (fun _ => 0) : PEntry K))) b

/-- The twenty-five `connWeights[a][b][r] = f` item assignments, in source
order (all assigned lambdas are two-argument). -/
def weightAssignments : List (Fin 6 × Fin 6 × Fin 5 × (K → K → K)) :=
  [ (IT, IT, AMPA, fun _ _ => 1),
    (IT, PT, AMPA, fun _ _ => 1),
    (IT, CT, AMPA, fun _ _ => 1),
    (IT, Pva, AMPA, fun _ _ => 1),
    (IT, Sst, AMPA, fun _ _ => 1),
    (PT, IT, AMPA, fun _ _ => 0),
    (PT, PT, AMPA, fun _ _ => 1),
    (PT, CT, AMPA, fun _ _ => 0),
    (PT, Pva, AMPA, fun _ _ => 1),
    (PT, Sst, AMPA, fun _ _ => 1),
    (CT, IT, AMPA, fun _ _ => 1),
    (CT, PT, AMPA, fun _ _ => 0),
    (CT, CT, AMPA, fun _ _ => 1),
    (CT, Pva, AMPA, fun _ _ => 1),
    (CT, Sst, AMPA, fun _ _ => 1),
    (Pva, IT, GABAA, fun _ _ => 1),
    (Pva, PT, GABAA, fun _ _ => 1),
    (Pva, CT, GABAA, fun _ _ => 1),
    (Pva, Pva, GABAA, fun _ _ => 1),
    (Pva, Sst, GABAA, fun _ _ => 1),
    (Sst, IT, GABAB, fun _ _ => 1),
    (Sst, PT, GABAB, fun _ _ => 1),
    (Sst, CT, GABAB, fun _ _ => 1),
    (Sst, Pva, GABAB, fun _ _ => 1),
    (Sst, Sst, GABAB, fun _ _ => 1) ]

/-- The `connWeights` class variable after all assignments: every `(a, b)`
slot aliases one shared receptor row, so an assignment `(a, b, r, f)` updates
that row at receptor `r` and the lookup ignores both class indices. -/
def connWeights : Fin 6 → Fin 6 → Fin 5 → (K → K → K) := fun _a _b r =>
  ((weightAssignments (K := K)).foldl
    (fun (row : Fin 5 → K → K → K) e => Function.update row e.2.2.1 e.2.2.2)
    (fun _ : Fin 5 => (fun _ _ => 0 : K → K → K))) r

/-- The configuration surface read by `Conn.connect`. -/
structure ConnConfig (K : Type) where
  toroidal : Bool
  modelsize : K
  corticalthick : K
  scaleconnprob : Fin 2 → Fin 2 → K
  connfalloff : Fin 2 → K
  mindelay : K
  velocity : K
  scaleconnweight : Fin 2 → Fin 2 → K
  receptorweight : Fin 5 → K
  randseed : ℕ

/-- A realized connection record (class `Conn.__init__`; the NetCon side
effects are out of scope).  `preid` stores `preGid = preids[i]`, which is the
POSITION of the realized candidate in `cellsPre`. -/
structure Conn (K : Type) where
  preid : ℕ
  postid : ℕ
  delay : K
  weight : List K
deriving DecidableEq

/-- Python 2 comparison of two lists: lexicographic, a strict prefix is
smaller. -/
def lexLt : List K → List K → Bool
  | [], [] => false
  | [], _ :: _ => true
  | _ :: _, [] => false
  | a :: as, b :: bs => if a < b then true else if b < a then false else lexLt as bs

/-- The toroidal "per-axis minimum": `xpath[xpath2<xpath] = xpath2[xpath2<xpath]`
where `xpath` and `xpath2` are Python LISTS, not arrays.  `xpath2 < xpath` is
therefore a single lexicographic boolean `b`, and the statement copies the one
element at index `int(b)` (IndexError when that index does not exist). -/
def torusIdx (p p2 : List K) : ℕ := if lexLt p2 p then 1 else 0

def listAssignTorus (p p2 : List K) : Except ConnErr (List K) :=
  if torusIdx p p2 < p2.length ∧ torusIdx p p2 < p.length then
    .ok (p.set (torusIdx p p2) (p2.getD (torusIdx p p2) 0))
  else .error .indexError

/-- The pairwise planar distances of `Conn.connect` (lines 237-251).  The
unused 3-D distances (`ypath`, `distances3d`) are computed by the source but
feed nothing downstream and are omitted. -/
def distancesOf (s : ConnConfig K) (sqrtFn : K → K)
    (cellsPre : List (Cell K)) (cellPost : Cell K) : Except ConnErr (List K) :=
  if s.toroidal then
    bindE (listAssignTorus (cellsPre.map (fun x => (x.xloc - cellPost.xloc) ^ 2))
        (cellsPre.map (fun x => (s.modelsize - |x.xloc - cellPost.xloc|) ^ 2))) (fun xp =>
      bindE (listAssignTorus (cellsPre.map (fun x => (x.zloc - cellPost.zloc) ^ 2))
          (cellsPre.map (fun x => (s.modelsize - |x.zloc - cellPost.zloc|) ^ 2))) (fun zp =>
        .ok (List.zipWith (fun a b => sqrtFn (a + b)) xp zp)))
  else
    .ok (cellsPre.map (fun x =>
      sqrtFn ((x.xloc - cellPost.xloc) ^ 2 + (x.zloc - cellPost.zloc) ^ 2)))

/-- Sequencing a fallible map over a list (the probability-factor list
comprehension raises on the first one-argument entry). -/
def mapExcept (f : α → Except ConnErr β) : List α → Except ConnErr (List β)
  | [] => .ok []
  | a :: as => bindE (f a) (fun b => bindE (mapExcept f as) (fun bs => .ok (b :: bs)))

/-- One candidate's class-pair probability factor
`cls.connProbs[x.topClass][cellPost.topClass](x.yfrac, cellPost.yfrac)`. -/
def probFactorFn (cellPost : Cell K) (x : Cell K) : Except ConnErr K :=
  callProb (connProbs x.topClass cellPost.topClass) x.yfrac cellPost.yfrac

/-- `allconnprobs` before the self-connection zeroing:
`scaleconnprob[pre.EorI, post.EorI] * probfactor * exp(-distance/connfalloff[pre.EorI])`,
elementwise over the candidates. -/
def rawProbs (s : ConnConfig K) (expFn : K → K) (cellsPre : List (Cell K))
    (cellPost : Cell K) (pfs ds : List K) : List K :=
  List.zipWith
    (fun x pd => s.scaleconnprob x.EorI cellPost.EorI * pd.1 *
      expFn (-pd.2 / s.connfalloff x.EorI))
    cellsPre (pfs.zip ds)

/-- `preids`: the positions whose (post-zeroing) probability beats the
positionally paired draw `allrands[i] = u i`. -/
def realizedIdx (probs2 : List K) (u : ℕ → K) : List ℕ :=
  (List.range probs2.length).filter (fun i => decide (probs2.getD i 0 > u i))

/-- Building the `Conn` records for the realized positions: `preGid` is the
position itself, the delay is `mindelay + distances[preids[i]]/velocity`, and
the weight vector multiplies the class-pair scale, the (aliased) class-pair
receptor weight function and the per-receptor global scale. -/
def mkConns (s : ConnConfig K) (cellsPre : List (Cell K)) (cellPost : Cell K)
    (ds : List K) (ids : List ℕ) : List (Conn K) :=
  ids.filterMap (fun i =>
    (cellsPre.get? i).map (fun x =>
      ({ preid := i, postid := cellPost.gid,
         delay := s.mindelay + ds.getD i 0 / s.velocity,
         weight := (List.finRange 5).map (fun r =>
           s.scaleconnweight x.EorI cellPost.EorI *
             connWeights x.topClass cellPost.topClass r x.yfrac cellPost.yfrac *
             s.receptorweight r) } : Conn K)))

/-- `Conn.connect` given the already-seeded uniform stream `u`: distances,
probability factors, pairwise probabilities, the positional self-connection
zeroing `allconnprobs[cellPost.gid] = 0` (an IndexError when `cellPost.gid`
is out of bounds, in particular for an empty candidate list), the positional
draws, and the realized `Conn` records. -/
def connectWith (s : ConnConfig K) (sqrtFn expFn : K → K) (u : ℕ → K)
    (cellsPre : List (Cell K)) (cellPost : Cell K) :
    Except ConnErr (List (Conn K)) :=
  bindE (distancesOf s sqrtFn cellsPre cellPost) (fun ds =>
    bindE (mapExcept (probFactorFn cellPost) cellsPre) (fun pfs =>
      if cellPost.gid < (rawProbs s expFn cellsPre cellPost pfs ds).length then
        .ok (mkConns s cellsPre cellPost ds
          (realizedIdx ((rawProbs s expFn cellsPre cellPost pfs ds).set cellPost.gid 0) u))
      else .error .indexError))

/-- `Conn.connect`: the stream is reseeded from
`id32('%d' % (randseed + cellPost.gid))`, so the draws are those of the
stream family at key `randseed + cellPost.gid`, independent of any draws made
for other postsynaptic cells. -/
def connect (streams : ℕ → ℕ → K) (s : ConnConfig K) (sqrtFn expFn : K → K)
    (cellsPre : List (Cell K)) (cellPost : Cell K) :
    Except ConnErr (List (Conn K)) :=
  connectWith s sqrtFn expFn (streams (s.randseed + cellPost.gid)) cellsPre cellPost

/-- Modelled from the spec: the toroidal distance the spec describes, taking
for each axis the minimum of the direct and the wrap-around squared
difference before combining.  Used only to compare against `distancesOf`. -/
noncomputable def specToroidalDistances (s : ConnConfig ℝ) (cellsPre : List (Cell ℝ))
    (cellPost : Cell ℝ) : List ℝ :=
  cellsPre.map (fun x =>
    Real.sqrt
      (min ((x.xloc - cellPost.xloc) ^ 2) ((s.modelsize - |x.xloc - cellPost.xloc|) ^ 2) +
       min ((x.zloc - cellPost.zloc) ^ 2) ((s.modelsize - |x.zloc - cellPost.zloc|) ^ 2)))

/-! ### Concrete connection-side inputs (over `ℝ`) -/

/-- Constant-1/2 stream family. -/
noncomputable def stR : ℕ → ℕ → ℝ := fun _ _ => 1 / 2

/-- Cell builder for the connection runs: located at the origin, depth 3/10. -/
noncomputable def cellR (g : ℕ) (e : Fin 2) (t : Fin 6) : Cell ℝ :=
  { gid := g, popid := 0, EorI := e, topClass := t, subClass := 1,
    yfrac := 3 / 10, xloc := 0, zloc := 0 }

/-- Connection config for the concrete runs: non-toroidal, flat probability
scale 5, unit weight scales, minimum delay 2, velocity 1. -/
noncomputable def s0 : ConnConfig ℝ :=
  { toroidal := false, modelsize := 1000, corticalthick := 1000,
    scaleconnprob := fun _ _ => 5, connfalloff := fun _ => 200,
    mindelay := 2, velocity := 1, scaleconnweight := fun _ _ => 1,
    receptorweight := fun _ => 1, randseed := 1 }

/-- Variant config whose excitability scale separates candidates: probability
9/10 for an excitatory and 1/10 for an inhibitory presynaptic cell (with the
class-pair factor 1 and distance 0 these are the full probabilities). -/
noncomputable def s4 : ConnConfig ℝ :=
  { s0 with scaleconnprob := fun i _ => if i = 0 then 9 / 10 else 1 / 10 }

/-- Toroidal variant of the config. -/
noncomputable def s6 : ConnConfig ℝ := { s0 with toroidal := true }

/-- Candidate for the toroidal run, at (x, z) = (0, 0). -/
noncomputable def c6 : Cell ℝ := cellR 1 E IT

/-- Post cell for the toroidal run, at (x, z) = (1, 0). -/
noncomputable def post6 : Cell ℝ := { cellR 0 E IT with xloc := 1 }

/-! ### Helper lemmas -/
@[simp] lemma bindE_ok {ε α β : Type} (a : α) (f : α → Except ε β) :
    bindE (.ok a) f = f a := rfl

@[simp] lemma bindE_error {ε α β : Type} (e : ε) (f : α → Except ε β) :
    bindE (.error e) f = .error e := rfl

lemma bindE_ok_elim {ε α β : Type} {e : Except ε α} {f : α → Except ε β} {c : β}
    (h : bindE e f = .ok c) : ∃ a, e = .ok a ∧ f a = .ok c := by
  cases e with
  | error e2 => simp [bindE] at h
  | ok a => exact ⟨a, rfl, by simpa [bindE] using h⟩

lemma connProbs_col_IT (a : Fin 6) :
    connProbs (K := K) a IT = PEntry.binary (fun _ _ => 1) := rfl

lemma connProbs_col_HTR (a : Fin 6) :
    connProbs (K := K) a HTR = PEntry.unary (fun _ => 0) := rfl

lemma connWeights_AMPA (a b : Fin 6) :
    connWeights (K := K) a b AMPA = fun _ _ => 1 := rfl

lemma connWeights_NMDA (a b : Fin 6) :
    connWeights (K := K) a b NMDA = fun _ _ => 0 := rfl

lemma connWeights_GABAA (a b : Fin 6) :
    connWeights (K := K) a b GABAA = fun _ _ => 1 := rfl

lemma connWeights_GABAB (a b : Fin 6) :
    connWeights (K := K) a b GABAB = fun _ _ => 1 := rfl

lemma connWeights_opsin (a b : Fin 6) :
    connWeights (K := K) a b opsin = fun _ _ => 0 := rfl

lemma finRange_five : List.finRange 5 = [AMPA, NMDA, GABAA, GABAB, opsin] := rfl

lemma mapExcept_length {α β : Type} {f : α → Except ConnErr β} :
    ∀ {l : List α} {bs : List β}, mapExcept f l = .ok bs → bs.length = l.length := by
  intro l
  induction l with
  | nil =>
    intro bs h
    simp only [mapExcept, Except.ok.injEq] at h
    simp [← h]
  | cons a as ih =>
    intro bs h
    rw [mapExcept] at h
    obtain ⟨b, hb, h⟩ := bindE_ok_elim h
    obtain ⟨bs2, hbs2, h⟩ := bindE_ok_elim h
    injection h with h
    simp [← h, ih hbs2]

lemma listAssignTorus_length {p p2 q : List K} (h : listAssignTorus p p2 = .ok q) :
    q.length = p.length := by
  unfold listAssignTorus at h
  split at h
  · injection h with h
    simp [← h]
  · cases h

lemma distancesOf_length {s : ConnConfig K} {f : K → K} {pre : List (Cell K)}
    {post : Cell K} {ds : List K} (h : distancesOf s f pre post = .ok ds) :
    ds.length = pre.length := by
  unfold distancesOf at h
  by_cases ht : s.toroidal = true
  · rw [if_pos ht] at h
    obtain ⟨xp, hx, h⟩ := bindE_ok_elim h
    obtain ⟨zp, hz, h⟩ := bindE_ok_elim h
    injection h with h
    have hxl := listAssignTorus_length hx
    have hzl := listAssignTorus_length hz
    simp at hxl hzl
    simp [← h, hxl, hzl]
  · rw [if_neg ht] at h
    injection h with h
    simp [← h]

lemma zipWith_app_mem {f : K → K} :
    ∀ {l1 l2 : List K} {d : K},
      d ∈ List.zipWith (fun a b => f (a + b)) l1 l2 → ∃ t, d = f t := by
  intro l1
  induction l1 with
  | nil => intro l2 d h; simp at h
  | cons a as ih =>
    intro l2 d h
    cases l2 with
    | nil => simp at h
    | cons b bs =>
      rw [List.zipWith_cons_cons, List.mem_cons] at h
      rcases h with h | h
      · exact ⟨a + b, h⟩
      · exact ih h

lemma distancesOf_mem {s : ConnConfig K} {f : K → K} {pre : List (Cell K)}
    {post : Cell K} {ds : List K} (h : distancesOf s f pre post = .ok ds) :
    ∀ d ∈ ds, ∃ t, d = f t := by
  unfold distancesOf at h
  by_cases ht : s.toroidal = true
  · rw [if_pos ht] at h
    obtain ⟨xp, hx, h⟩ := bindE_ok_elim h
    obtain ⟨zp, hz, h⟩ := bindE_ok_elim h
    injection h with h
    intro d hd
    rw [← h] at hd
    exact zipWith_app_mem hd
  · rw [if_neg ht] at h
    injection h with h
    intro d hd
    rw [← h, List.mem_map] at hd
    obtain ⟨x, _, hx⟩ := hd
    exact ⟨_, hx.symm⟩

lemma realizedIdx_mem {probs2 : List K} {u : ℕ → K} {i : ℕ}
    (h : i ∈ realizedIdx probs2 u) :
    i < probs2.length ∧ probs2.getD i 0 > u i := by
  unfold realizedIdx at h
  rw [List.mem_filter] at h
  exact ⟨List.mem_range.mp h.1, of_decide_eq_true h.2⟩

lemma mkConns_mem {s : ConnConfig K} {pre : List (Cell K)} {post : Cell K}
    {ds : List K} {ids : List ℕ} {c : Conn K} (h : c ∈ mkConns s pre post ds ids) :
    ∃ i ∈ ids, ∃ x, pre.get? i = some x ∧ c.preid = i ∧ c.postid = post.gid ∧
      c.delay = s.mindelay + ds.getD i 0 / s.velocity ∧
      c.weight = (List.finRange 5).map (fun r =>
        s.scaleconnweight x.EorI post.EorI *
          connWeights x.topClass post.topClass r x.yfrac post.yfrac *
          s.receptorweight r) := by
  unfold mkConns at h
  rw [List.mem_filterMap] at h
  obtain ⟨i, hi, hmap⟩ := h
  rw [Option.map_eq_some'] at hmap
  obtain ⟨x, hx, hc⟩ := hmap
  exact ⟨i, hi, x, hx, by rw [← hc], by rw [← hc], by rw [← hc], by rw [← hc]⟩

lemma rawProbs_length {s : ConnConfig K} {expFn : K → K} {pre : List (Cell K)}
    {post : Cell K} {pfs ds : List K} (hp : pfs.length = pre.length)
    (hd : ds.length = pre.length) :
    (rawProbs s expFn pre post pfs ds).length = pre.length := by
  simp [rawProbs, hp, hd]

/-- Inverting a successful `connectWith` run into its components. -/
lemma connectWith_ok_elim {s : ConnConfig K} {sqrtFn expFn : K → K} {u : ℕ → K}
    {pre : List (Cell K)} {post : Cell K} {conns : List (Conn K)}
    (hok : connectWith s sqrtFn expFn u pre post = .ok conns) :
    ∃ ds pfs, distancesOf s sqrtFn pre post = .ok ds ∧
      mapExcept (probFactorFn post) pre = .ok pfs ∧
      post.gid < (rawProbs s expFn pre post pfs ds).length ∧
      conns = mkConns s pre post ds
        (realizedIdx ((rawProbs s expFn pre post pfs ds).set post.gid 0) u) := by
  unfold connectWith at hok
  obtain ⟨ds, hd, hok⟩ := bindE_ok_elim hok
  obtain ⟨pfs, hp, hok⟩ := bindE_ok_elim hok
  by_cases hlt : post.gid < (rawProbs s expFn pre post pfs ds).length
  · rw [if_pos hlt] at hok
    injection hok with hok
    exact ⟨ds, pfs, hd, hp, hlt, hok.symm⟩
  · rw [if_neg hlt] at hok; cases hok

lemma maxOrErr_ok_elim {o : Option K} {m : K} (h : maxOrErr o = .ok m) :
    o = some m := by
  cases o with
  | none => simp [maxOrErr] at h
  | some a =>
    unfold maxOrErr at h
    injection h with h
    rw [h]

lemma getD_range_map {f : ℕ → K} {n i : ℕ} (hi : i < n) :
    ((List.range n).map f).getD i 0 = f i := by
  rw [List.getD_eq_getElem _ _ (by simpa using hi)]
  simp

lemma getD_mem_of_lt {l : List K} {i : ℕ} (h : i < l.length) : l.getD i 0 ∈ l := by
  rw [List.getD_eq_getElem _ _ h]
  exact List.getElem_mem ..

lemma acceptedOf_lt {p : Pop K} {u : ℕ → K} {n : ℕ} {m : K} {i : ℕ}
    (h : i ∈ acceptedOf p u n m) : i < n := by
  unfold acceptedOf at h
  split at h
  · exact List.mem_range.mp (List.mem_filter.mp h).1
  · exact List.mem_range.mp (List.mem_filter.mp h).1

lemma candYfracs_getD {p : Pop K} {u : ℕ → K} {n i : ℕ} (hi : i < n) :
    (candYfracs p u n).getD i 0 = p.yfracLo + (p.yfracHi - p.yfracLo) * u i := by
  unfold candYfracs
  exact getD_range_map hi

/-- Inverting a successful `createCells` run. -/
lemma createCells_ok_elim [FloorRing K] {s : SimConfig K} {rank nhosts : ℕ}
    {gidVec : List ℕ} {u : ℕ → K} {p : Pop K}
    {cells : List (Cell K)} {nextGid : ℕ} {gidVec2 : List ℕ}
    (hok : createCells s rank nhosts gidVec u p = .ok (cells, nextGid, gidVec2)) :
    ∃ m, maxDensityOf p = some m ∧ ¬ volumeOf s p * m ≤ -1 ∧
      cells = madeCells s p rank nhosts gidVec u (⌊volumeOf s p * m⌋).toNat m ∧
      nextGid = lastGidOf gidVec +
        (acceptedYfracs p u (⌊volumeOf s p * m⌋).toNat m).length ∧
      gidVec2 = gidVec ++ (madeCells s p rank nhosts gidVec u
        (⌊volumeOf s p * m⌋).toNat m).map Cell.gid := by
  unfold createCells at hok
  obtain ⟨m, hm, hok⟩ := bindE_ok_elim hok
  by_cases hneg : volumeOf s p * m ≤ -1
  · rw [if_pos hneg] at hok; cases hok
  · rw [if_neg hneg] at hok
    injection hok with hok
    refine ⟨m, maxOrErr_ok_elim hm, hneg, ?_, ?_, ?_⟩
    · exact (congrArg Prod.fst hok).symm
    · exact (congrArg (fun t => t.2.1) hok).symm
    · exact (congrArg (fun t => t.2.2) hok).symm

/-! ### Evaluation lemmas for the concrete generation runs

Rational arithmetic is evaluated by `norm_num`; the common pattern computes
the sampled maximum density, the candidate/probability lists, the accepted
indices and the full `createCells` result. -/

lemma popP_maxD : maxDensityOf popP = some 1000 := by
  norm_num [maxDensityOf, arange, popP, List.range_succ]

lemma popP_cand : candYfracs popP uQ 3 = [1003/2000, 1003/2000, 1003/2000] := by
  norm_num [candYfracs, popP, uQ, List.range_succ]

lemma popP_accepted : acceptedOf popP uQ 3 1000 = [0, 1, 2] := by
  norm_num [acceptedOf, acceptedIdxPaired, candProbs, candYfracs, popP, uQ,
    List.range_succ, List.filter_cons, decide_eq_true_eq, List.getD, List.replicate]

lemma popP_yfracs : acceptedYfracs popP uQ 3 1000 = [1003/2000, 1003/2000, 1003/2000] := by
  rw [acceptedYfracs, popP_accepted, popP_cand]
  norm_num [List.getD]

lemma createCells_popP_eval (rank nhosts : ℕ) (g : List ℕ) :
    createCells sQ rank nhosts g uQ popP =
      .ok ((localIdxOf rank nhosts 3).map
            (fun i => mkCell sQ popP uQ 3 (lastGidOf g) i [1003/2000, 1003/2000, 1003/2000]),
          lastGidOf g + 3,
          g ++ (localIdxOf rank nhosts 3).map (fun i => lastGidOf g + i)) := by
  unfold createCells
  rw [popP_maxD]
  unfold maxOrErr
  rw [bindE_ok]
  have hvol : volumeOf sQ popP * 1000 = 3 := by norm_num [volumeOf, sQ, popP]
  rw [hvol]
  rw [if_neg (by norm_num)]
  have h3 : (⌊(3 : ℚ)⌋).toNat = 3 := by
    rw [show ⌊(3 : ℚ)⌋ = 3 from by norm_num]
    rfl
  rw [h3]
  unfold madeCells
  rw [popP_yfracs]
  norm_num [List.map_map, mkCell, Function.comp]

lemma popQ_maxD : maxDensityOf popQ = some 1000 := by
  norm_num [maxDensityOf, arange, popQ, List.range_succ]

lemma popQ_cand : candYfracs popQ uQ 2 = [501/1000, 501/1000] := by
  norm_num [candYfracs, popQ, uQ, List.range_succ]

lemma popQ_probs : candProbs popQ uQ 2 1000 = [1, 1] := by
  norm_num [candProbs, candYfracs, popQ, uQ, List.range_succ, List.replicate]

lemma popQ_accepted : acceptedOf popQ uQ 2 1000 = [0, 1] := by
  rw [acceptedOf, show popQ.vectorizedDensity = false from rfl]
  rw [if_neg (by simp)]
  rw [acceptedIdxPaired, popQ_probs]
  norm_num [List.range_succ, List.filter_cons, decide_eq_true_eq, List.getD, uQ]

lemma popQ_yfracs : acceptedYfracs popQ uQ 2 1000 = [501/1000, 501/1000] := by
  rw [acceptedYfracs, popQ_accepted, popQ_cand]
  norm_num [List.getD]

lemma createCells_popQ_eval (rank nhosts : ℕ) (g : List ℕ) :
    createCells sQ rank nhosts g uQ popQ =
      .ok ((localIdxOf rank nhosts 2).map
            (fun i => mkCell sQ popQ uQ 2 (lastGidOf g) i [501/1000, 501/1000]),
          lastGidOf g + 2,
          g ++ (localIdxOf rank nhosts 2).map (fun i => lastGidOf g + i)) := by
  unfold createCells
  rw [popQ_maxD]
  unfold maxOrErr
  rw [bindE_ok]
  have hvol : volumeOf sQ popQ * 1000 = 2 := by norm_num [volumeOf, sQ, popQ]
  rw [hvol]
  rw [if_neg (by norm_num)]
  have h2 : (⌊(2 : ℚ)⌋).toNat = 2 := by
    rw [show ⌊(2 : ℚ)⌋ = 2 from by norm_num]
    rfl
  rw [h2]
  unfold madeCells
  rw [popQ_yfracs]
  norm_num [List.map_map, mkCell, Function.comp]

lemma popV_maxD : maxDensityOf popV = some 1400 := by
  norm_num [maxDensityOf, arange, popV, List.range_succ, max_def]

lemma popV_cand : candYfracs popV uC 2 = [501/1000, 1001/2000] := by
  norm_num [candYfracs, popV, uC, List.range_succ]

lemma popV_probs : candProbs popV uC 2 1400 = [2/7, 9/14] := by
  rw [candProbs, popV_cand]
  norm_num [popV]

lemma popV_accepted : acceptedOf popV uC 2 1400 = [0, 1] := by
  rw [acceptedOf, show popV.vectorizedDensity = true from rfl, if_pos rfl]
  rw [acceptedIdxBroadcast]
  norm_num [popV_probs, List.range_succ, List.filter_cons, List.any_cons,
    decide_eq_true_eq, List.getD, uC]

lemma popV_yfracs : acceptedYfracs popV uC 2 1400 = [501/1000, 1001/2000] := by
  rw [acceptedYfracs, popV_accepted, popV_cand]
  norm_num [List.getD]

lemma popV_paired : acceptedIdxPaired (candProbs popV uC 2 1400) uC 2 = [1] := by
  rw [acceptedIdxPaired, popV_probs]
  norm_num [List.range_succ, List.filter_cons, decide_eq_true_eq, List.getD, uC]

lemma createCells_popV_eval :
    createCells sV 0 1 [] uC popV =
      .ok ((localIdxOf 0 1 2).map
            (fun i => mkCell sV popV uC 2 (lastGidOf []) i [501/1000, 1001/2000]),
          lastGidOf [] + 2,
          [] ++ (localIdxOf 0 1 2).map (fun i => lastGidOf [] + i)) := by
  unfold createCells
  rw [popV_maxD]
  unfold maxOrErr
  rw [bindE_ok]
  have hvol : volumeOf sV popV * 1400 = 2 := by norm_num [volumeOf, sV, popV]
  rw [hvol]
  rw [if_neg (by norm_num)]
  have h2 : (⌊(2 : ℚ)⌋).toNat = 2 := by
    rw [show ⌊(2 : ℚ)⌋ = 2 from by norm_num]
    rfl
  rw [h2]
  unfold madeCells
  rw [popV_yfracs]
  norm_num [List.map_map, mkCell, Function.comp]

lemma popNeg_maxD : maxDensityOf popNeg = some 1000 := by
  norm_num [maxDensityOf, arange, popNeg, List.range_succ, max_def]

lemma popNeg_cand : candYfracs popNeg uQ 3 = [203/2000, 203/2000, 203/2000] := by
  norm_num [candYfracs, popNeg, uQ, List.range_succ]

lemma popNeg_probs : candProbs popNeg uQ 3 1000 = [1, 1, 1] := by
  rw [candProbs, popNeg_cand]
  norm_num [popNeg]

lemma popNeg_accepted : acceptedOf popNeg uQ 3 1000 = [0, 1, 2] := by
  rw [acceptedOf, show popNeg.vectorizedDensity = false from rfl]
  rw [if_neg (by simp)]
  rw [acceptedIdxPaired]
  norm_num [popNeg_probs, List.range_succ, List.filter_cons, decide_eq_true_eq,
    List.getD, uQ]

lemma popNeg_yfracs : acceptedYfracs popNeg uQ 3 1000 = [203/2000, 203/2000, 203/2000] := by
  rw [acceptedYfracs, popNeg_accepted, popNeg_cand]
  norm_num [List.getD]

lemma createCells_popNeg_eval :
    createCells sQ 0 1 [] uQ popNeg =
      .ok ((localIdxOf 0 1 3).map
            (fun i => mkCell sQ popNeg uQ 3 (lastGidOf []) i [203/2000, 203/2000, 203/2000]),
          lastGidOf [] + 3,
          [] ++ (localIdxOf 0 1 3).map (fun i => lastGidOf [] + i)) := by
  unfold createCells
  rw [popNeg_maxD]
  unfold maxOrErr
  rw [bindE_ok]
  have hvol : volumeOf sQ popNeg * 1000 = 3 := by norm_num [volumeOf, sQ, popNeg]
  rw [hvol]
  rw [if_neg (by norm_num)]
  have h3 : (⌊(3 : ℚ)⌋).toNat = 3 := by
    rw [show ⌊(3 : ℚ)⌋ = 3 from by norm_num]
    rfl
  rw [h3]
  unfold madeCells
  rw [popNeg_yfracs]
  norm_num [List.map_map, mkCell, Function.comp]

lemma allNeg_maxD : maxDensityOf popAllNeg = some (-1000) := by
  norm_num [maxDensityOf, arange, popAllNeg, List.range_succ, max_def]

/-! ### Claim theorems: population / cell generation -/

/-- Claim C1: the claim asserts that `Pop.createCells` assigns the identical
global ids for every partition count.  Evaluating the embedded code on two
successive populations (3 accepted cells, then 2) shows otherwise: with one
partition the second population's cells get gids `[3, 4]`, while with two
partitions rank 0 produces `[0, 2]` then `[3]` and rank 1 produces `[1]` then
`[3]` — the cell of generation index 1 of the second population receives gid 3
instead of 4 (and gid 3 is claimed by both ranks for different cells), because
`lastGid` is recomputed from the PARTITION-LOCAL `gidVec` instead of the
network-wide running offset. -/
theorem C1_gid_divergence :
    (createCellsSeq sQ 0 1 uQ [popP, popQ] []).map
        (fun r => r.1.map (fun cs => cs.map Cell.gid)) = .ok [[0, 1, 2], [3, 4]] ∧
    (createCellsSeq sQ 0 2 uQ [popP, popQ] []).map
        (fun r => r.1.map (fun cs => cs.map Cell.gid)) = .ok [[0, 2], [3]] ∧
    (createCellsSeq sQ 1 2 uQ [popP, popQ] []).map
        (fun r => r.1.map (fun cs => cs.map Cell.gid)) = .ok [[1], [3]] := by
  refine ⟨?_, ?_, ?_⟩ <;>
  · simp only [createCellsSeq, createCells_popP_eval, createCells_popQ_eval, bindE_ok]
    simp [mkCell, Except.map, localIdxOf, lastGidOf, List.filter_cons, List.range_succ]

/-- Claim C7: the claim asserts paired rejection sampling (candidate `i` kept
iff its probability beats its own draw).  On a population with an
array-returning density (the same form as the source's `lambda x: 2e3*x`),
the `(n,1)`-shaped probability column is broadcast against the `(n,)` draw
vector, so a candidate is kept iff it beats ANY draw.  With candidate
probabilities `[2/7, 9/14]` and draws `[1/2, 1/10]` the code keeps both
candidates (`numCells = 2`), although the paired test of the claim keeps only
the second. -/
theorem C7_broadcast_divergence :
    maxDensityOf popV = some 1400 ∧
    volumeOf sV popV * 1400 = 2 ∧
    candProbs popV uC 2 1400 = [2 / 7, 9 / 14] ∧
    (createCells sV 0 1 [] uC popV).map (fun r => (r.1.map Cell.yfrac, r.2.1)) =
      .ok ([501 / 1000, 1001 / 2000], 2) ∧
    acceptedIdxPaired (candProbs popV uC 2 1400) uC 2 = [1] := by
  refine ⟨popV_maxD, by norm_num [volumeOf, sV, popV], popV_probs, ?_, popV_paired⟩
  rw [createCells_popV_eval]
  simp [Except.map, mkCell, localIdxOf, lastGidOf, List.filter_cons, List.range_succ]

/-- Claim C8 counterexample: a density that is negative at a sampled depth of
its range (depth 0.1, the first grid point) with positive sampled maximum:
`createCells` does not fail at all — it returns normally, so no fatal
configuration error is raised at the point of first use. -/
theorem C8_counterexample :
    popNeg.density (1 / 10) < 0 ∧
    (1 / 10 : ℚ) ∈ arange popNeg.yfracLo popNeg.yfracHi (1 / 1000) ∧
    (createCells sQ 0 1 [] uQ popNeg).toOption ≠ none := by
  refine ⟨by norm_num [popNeg], ?_, ?_⟩
  · norm_num [arange, popNeg, List.range_succ]
  · rw [createCells_popNeg_eval]
    simp [Except.toOption]

/-- Claim C8 (amended): `createCells` performs no density validation; the only
failure a negative density can cause is the `rand` call aborting on a negative
candidate count, which happens exactly when `volume * maxDensity ≤ -1` — i.e.
only when the sampled MAXIMUM of the density is itself negative (and the
volume large enough), not at the density's point of first use. -/
theorem C8_negative_maxdensity_aborts [FloorRing K] (s : SimConfig K)
    (rank nhosts : ℕ) (gidVec : List ℕ) (u : ℕ → K) (p : Pop K) (m : K)
    (hm : maxDensityOf p = some m) (hneg : volumeOf s p * m ≤ -1) :
    createCells s rank nhosts gidVec u p = .error .negativeDraws := by
  unfold createCells
  rw [hm]
  unfold maxOrErr
  rw [bindE_ok]
  exact if_pos hneg

/-- Witness for C8: a population whose density is -1000 everywhere on its
range aborts with the negative-draw-count error. -/
theorem C8_witness : createCells sQ 0 1 [] uQ popAllNeg = .error .negativeDraws :=
  C8_negative_maxdensity_aborts sQ 0 1 [] uQ popAllNeg (-1000) allNeg_maxD
    (by norm_num [volumeOf, sQ, popAllNeg])

/-- Claim C10: every cell materialized by `createCells` has its depth
fraction in the population's range `[yfracLo, yfracHi)` and planar
coordinates in `[0, modelsize]`, for every partition index and count,
whenever the range is nonempty and the uniform draws lie in `[0, 1)`. -/
theorem C10_bounds [FloorRing K] (s : SimConfig K) (rank nhosts : ℕ)
    (gidVec : List ℕ) (u : ℕ → K) (p : Pop K)
    (cells : List (Cell K)) (nextGid : ℕ) (gidVec2 : List ℕ)
    (hlo : p.yfracLo < p.yfracHi)
    (hu : ∀ n, 0 ≤ u n ∧ u n < 1)
    (hms : 0 ≤ s.modelsize)
    (hok : createCells s rank nhosts gidVec u p = .ok (cells, nextGid, gidVec2)) :
    ∀ c ∈ cells, (p.yfracLo ≤ c.yfrac ∧ c.yfrac < p.yfracHi) ∧
      (0 ≤ c.xloc ∧ c.xloc ≤ s.modelsize) ∧ (0 ≤ c.zloc ∧ c.zloc ≤ s.modelsize) := by
  obtain ⟨m, hm, hneg, hcells, hnext, hgv⟩ := createCells_ok_elim hok
  subst hcells
  intro c hc
  unfold madeCells at hc
  rw [List.mem_map] at hc
  obtain ⟨i, hi, rfl⟩ := hc
  have hilt : i < (acceptedYfracs p u (⌊volumeOf s p * m⌋).toNat m).length := by
    unfold localIdxOf at hi
    exact List.mem_range.mp (List.mem_filter.mp hi).1
  simp only [mkCell]
  refine ⟨?_, ?_, ?_⟩
  · have hmem := getD_mem_of_lt hilt
    unfold acceptedYfracs at hmem ⊢
    rw [List.mem_map] at hmem
    obtain ⟨j, hj, hval⟩ := hmem
    rw [← hval, candYfracs_getD (acceptedOf_lt hj)]
    have h0 := (hu j).1
    have h1 := (hu j).2
    have hsub : (0 : K) < p.yfracHi - p.yfracLo := sub_pos.mpr hlo
    constructor
    · nlinarith
    · nlinarith
  · exact ⟨mul_nonneg hms (hu _).1, mul_le_of_le_one_right hms (hu _).2.le⟩
  · exact ⟨mul_nonneg hms (hu _).1, mul_le_of_le_one_right hms (hu _).2.le⟩

/-- Witness for C10: the first cell of the concrete `popP` run (depth 1003/2000,
position (500, 500)) satisfies the bounds. -/
theorem C10_witness :
    (popP.yfracLo ≤ (mkCell sQ popP uQ 3 (lastGidOf []) 0
        [1003/2000, 1003/2000, 1003/2000]).yfrac ∧
      (mkCell sQ popP uQ 3 (lastGidOf []) 0
        [1003/2000, 1003/2000, 1003/2000]).yfrac < popP.yfracHi) ∧
    (0 ≤ (mkCell sQ popP uQ 3 (lastGidOf []) 0
        [1003/2000, 1003/2000, 1003/2000]).xloc ∧
      (mkCell sQ popP uQ 3 (lastGidOf []) 0
        [1003/2000, 1003/2000, 1003/2000]).xloc ≤ sQ.modelsize) ∧
    (0 ≤ (mkCell sQ popP uQ 3 (lastGidOf []) 0
        [1003/2000, 1003/2000, 1003/2000]).zloc ∧
      (mkCell sQ popP uQ 3 (lastGidOf []) 0
        [1003/2000, 1003/2000, 1003/2000]).zloc ≤ sQ.modelsize) := by
  have hcell : mkCell sQ popP uQ 3 (lastGidOf []) 0
      [1003/2000, 1003/2000, 1003/2000] ∈
      (localIdxOf 0 1 3).map (fun i => mkCell sQ popP uQ 3 (lastGidOf []) i
        [1003/2000, 1003/2000, 1003/2000]) := by
    simp [localIdxOf, List.range_succ, List.filter_cons]
  exact C10_bounds sQ 0 1 [] uQ popP _ _ _
    (by norm_num [popP])
    (fun n => by norm_num [uQ])
    (by norm_num [sQ])
    (by rw [createCells_popP_eval]) _ hcell

/-! ### Evaluation lemmas for the concrete connection runs (over `ℝ`) -/

lemma connect_gidx_eval :
    connect stR s0 Real.sqrt Real.exp [cellR 0 E IT, cellR 1 E IT] (cellR 0 E IT) =
      .ok [⟨1, 0, 2, [1, 0, 1, 1, 0]⟩] := by
  unfold connect connectWith
  have hd : distancesOf s0 Real.sqrt [cellR 0 E IT, cellR 1 E IT] (cellR 0 E IT) =
      .ok [0, 0] := by
    norm_num [distancesOf, s0, cellR, Real.sqrt_zero]
  rw [hd, bindE_ok]
  have hp : mapExcept (probFactorFn (cellR 0 E IT)) [cellR 0 E IT, cellR 1 E IT] =
      .ok [1, 1] := by
    norm_num [mapExcept, probFactorFn, cellR, connProbs_col_IT, callProb]
  rw [hp, bindE_ok]
  have hraw : rawProbs s0 Real.exp [cellR 0 E IT, cellR 1 E IT] (cellR 0 E IT) [1, 1] [0, 0] =
      [5, 5] := by
    norm_num [rawProbs, s0, cellR, Real.exp_zero]
  rw [hraw]
  rw [if_pos (by norm_num [cellR])]
  have hset : (([5, 5] : List ℝ).set ((cellR 0 E IT).gid) 0) = [0, 5] := by
    norm_num [cellR]
  rw [hset]
  have hreal : realizedIdx ([0, 5] : List ℝ) (stR (s0.randseed + (cellR 0 E IT).gid)) = [1] := by
    norm_num [realizedIdx, stR, List.range_succ, List.filter_cons, decide_eq_true_eq, List.getD]
  rw [hreal]
  norm_num [mkConns, s0, cellR, List.getD, finRange_five, connWeights_AMPA,
    connWeights_NMDA, connWeights_GABAA, connWeights_GABAB, connWeights_opsin,
    List.filterMap_cons, List.getElem?_cons_succ, List.getElem?_cons_zero,
    Option.map_some, Option.map_none]

lemma connect_nonIdx_eval :
    connect stR s0 Real.sqrt Real.exp [cellR 3 E IT, cellR 0 E IT] (cellR 0 E IT) =
      .ok [⟨1, 0, 2, [1, 0, 1, 1, 0]⟩] := by
  unfold connect connectWith
  have hd : distancesOf s0 Real.sqrt [cellR 3 E IT, cellR 0 E IT] (cellR 0 E IT) =
      .ok [0, 0] := by
    norm_num [distancesOf, s0, cellR, Real.sqrt_zero]
  rw [hd, bindE_ok]
  have hp : mapExcept (probFactorFn (cellR 0 E IT)) [cellR 3 E IT, cellR 0 E IT] =
      .ok [1, 1] := by
    norm_num [mapExcept, probFactorFn, cellR, connProbs_col_IT, callProb]
  rw [hp, bindE_ok]
  have hraw : rawProbs s0 Real.exp [cellR 3 E IT, cellR 0 E IT] (cellR 0 E IT) [1, 1] [0, 0] =
      [5, 5] := by
    norm_num [rawProbs, s0, cellR, Real.exp_zero]
  rw [hraw]
  rw [if_pos (by norm_num [cellR])]
  have hset : (([5, 5] : List ℝ).set ((cellR 0 E IT).gid) 0) = [0, 5] := by
    norm_num [cellR]
  rw [hset]
  have hreal : realizedIdx ([0, 5] : List ℝ) (stR (s0.randseed + (cellR 0 E IT).gid)) = [1] := by
    norm_num [realizedIdx, stR, List.range_succ, List.filter_cons, decide_eq_true_eq, List.getD]
  rw [hreal]
  norm_num [mkConns, s0, cellR, List.getD, finRange_five, connWeights_AMPA,
    connWeights_NMDA, connWeights_GABAA, connWeights_GABAB, connWeights_opsin,
    List.filterMap_cons, List.getElem?_cons_succ, List.getElem?_cons_zero,
    Option.map_some, Option.map_none]

lemma connect_htr_eval :
    connect stR s0 Real.sqrt Real.exp [cellR 1 E IT, cellR 2 E HTR] (cellR 0 E IT) =
      .ok [⟨1, 0, 2, [1, 0, 1, 1, 0]⟩] := by
  unfold connect connectWith
  have hd : distancesOf s0 Real.sqrt [cellR 1 E IT, cellR 2 E HTR] (cellR 0 E IT) =
      .ok [0, 0] := by
    norm_num [distancesOf, s0, cellR, Real.sqrt_zero]
  rw [hd, bindE_ok]
  have hp : mapExcept (probFactorFn (cellR 0 E IT)) [cellR 1 E IT, cellR 2 E HTR] =
      .ok [1, 1] := by
    norm_num [mapExcept, probFactorFn, cellR, connProbs_col_IT, callProb]
  rw [hp, bindE_ok]
  have hraw : rawProbs s0 Real.exp [cellR 1 E IT, cellR 2 E HTR] (cellR 0 E IT) [1, 1] [0, 0] =
      [5, 5] := by
    norm_num [rawProbs, s0, cellR, Real.exp_zero]
  rw [hraw]
  rw [if_pos (by norm_num [cellR])]
  have hset : (([5, 5] : List ℝ).set ((cellR 0 E IT).gid) 0) = [0, 5] := by
    norm_num [cellR]
  rw [hset]
  have hreal : realizedIdx ([0, 5] : List ℝ) (stR (s0.randseed + (cellR 0 E IT).gid)) = [1] := by
    norm_num [realizedIdx, stR, List.range_succ, List.filter_cons, decide_eq_true_eq, List.getD]
  rw [hreal]
  norm_num [mkConns, s0, cellR, List.getD, finRange_five, connWeights_AMPA,
    connWeights_NMDA, connWeights_GABAA, connWeights_GABAB, connWeights_opsin,
    List.filterMap_cons, List.getElem?_cons_succ, List.getElem?_cons_zero,
    Option.map_some, Option.map_none]

lemma connect_order1_eval :
    connect stR s4 Real.sqrt Real.exp [cellR 1 E IT, cellR 2 I IT] (cellR 0 E IT) =
      .ok [] := by
  unfold connect connectWith
  have hd : distancesOf s4 Real.sqrt [cellR 1 E IT, cellR 2 I IT] (cellR 0 E IT) =
      .ok [0, 0] := by
    norm_num [distancesOf, s4, s0, cellR, Real.sqrt_zero]
  rw [hd, bindE_ok]
  have hp : mapExcept (probFactorFn (cellR 0 E IT)) [cellR 1 E IT, cellR 2 I IT] =
      .ok [1, 1] := by
    norm_num [mapExcept, probFactorFn, cellR, connProbs_col_IT, callProb]
  rw [hp, bindE_ok]
  have hraw : rawProbs s4 Real.exp [cellR 1 E IT, cellR 2 I IT] (cellR 0 E IT) [1, 1] [0, 0] =
      [9/10, 1/10] := by
    norm_num [rawProbs, s4, s0, cellR, Real.exp_zero, E, I]
  rw [hraw]
  rw [if_pos (by norm_num [cellR])]
  have hset : (([9/10, 1/10] : List ℝ).set ((cellR 0 E IT).gid) 0) = [0, 1/10] := by
    norm_num [cellR]
  rw [hset]
  have hreal : realizedIdx ([0, 1/10] : List ℝ) (stR (s4.randseed + (cellR 0 E IT).gid)) = [] := by
    norm_num [realizedIdx, stR, List.range_succ, List.filter_cons, decide_eq_true_eq, List.getD]
  rw [hreal]
  norm_num [mkConns]

lemma connect_order2_eval :
    connect stR s4 Real.sqrt Real.exp [cellR 2 I IT, cellR 1 E IT] (cellR 0 E IT) =
      .ok [⟨1, 0, 2, [1, 0, 1, 1, 0]⟩] := by
  unfold connect connectWith
  have hd : distancesOf s4 Real.sqrt [cellR 2 I IT, cellR 1 E IT] (cellR 0 E IT) =
      .ok [0, 0] := by
    norm_num [distancesOf, s4, s0, cellR, Real.sqrt_zero]
  rw [hd, bindE_ok]
  have hp : mapExcept (probFactorFn (cellR 0 E IT)) [cellR 2 I IT, cellR 1 E IT] =
      .ok [1, 1] := by
    norm_num [mapExcept, probFactorFn, cellR, connProbs_col_IT, callProb]
  rw [hp, bindE_ok]
  have hraw : rawProbs s4 Real.exp [cellR 2 I IT, cellR 1 E IT] (cellR 0 E IT) [1, 1] [0, 0] =
      [1/10, 9/10] := by
    norm_num [rawProbs, s4, s0, cellR, Real.exp_zero, E, I]
  rw [hraw]
  rw [if_pos (by norm_num [cellR])]
  have hset : (([1/10, 9/10] : List ℝ).set ((cellR 0 E IT).gid) 0) = [0, 9/10] := by
    norm_num [cellR]
  rw [hset]
  have hreal : realizedIdx ([0, 9/10] : List ℝ) (stR (s4.randseed + (cellR 0 E IT).gid)) = [1] := by
    norm_num [realizedIdx, stR, List.range_succ, List.filter_cons, decide_eq_true_eq, List.getD]
  rw [hreal]
  norm_num [mkConns, s4, s0, cellR, List.getD, finRange_five, connWeights_AMPA,
    connWeights_NMDA, connWeights_GABAA, connWeights_GABAB, connWeights_opsin,
    List.filterMap_cons, List.getElem?_cons_succ, List.getElem?_cons_zero,
    Option.map_some, Option.map_none]

lemma torus_dist_eval :
    distancesOf s6 Real.sqrt [c6] post6 = .ok [Real.sqrt 1998001] := by
  rw [distancesOf]
  rw [if_pos (by norm_num [s6, s0])]
  have hx : listAssignTorus ([c6].map (fun x => (x.xloc - post6.xloc) ^ 2))
      ([c6].map (fun x => (s6.modelsize - |x.xloc - post6.xloc|) ^ 2)) = .ok [998001] := by
    norm_num [listAssignTorus, torusIdx, lexLt, c6, post6, cellR, s6, s0]
  rw [hx, bindE_ok]
  have hz : listAssignTorus ([c6].map (fun x => (x.zloc - post6.zloc) ^ 2))
      ([c6].map (fun x => (s6.modelsize - |x.zloc - post6.zloc|) ^ 2)) = .ok [1000000] := by
    norm_num [listAssignTorus, torusIdx, lexLt, c6, post6, cellR, s6, s0]
  rw [hz, bindE_ok]
  norm_num

lemma torus_spec_eval : specToroidalDistances s6 [c6] post6 = [1] := by
  norm_num [specToroidalDistances, s6, s0, c6, post6, cellR, Real.sqrt_one]

lemma sqrt_1998001_ne_one : Real.sqrt 1998001 ≠ 1 := by
  intro h
  have h2 := Real.sq_sqrt (show (0:ℝ) ≤ 1998001 by norm_num)
  rw [h] at h2
  norm_num at h2

/-! ### Claim theorems: connectivity engine -/

/-- Claim C2 counterexample: the self-connection guard is POSITIONAL
(`allconnprobs[cellPost.gid] = 0` silences the candidate at list position
`cellPost.gid`, and the stored `preid` is a position, not a gid).  For the
candidate list `[gid 3, gid 0]` and the postsynaptic cell of gid 0, the
guard silences the gid-3 candidate at position 0, and the run realizes the
connection from position 1 — whose cell is exactly the postsynaptic cell
(gid 0).  A self-connection is realized, refuting the claim for arbitrary
candidate lists. -/
theorem C2_counterexample :
    (connect stR s0 Real.sqrt Real.exp [cellR 3 E IT, cellR 0 E IT]
        (cellR 0 E IT)).map (fun l => l.map Conn.preid) = .ok [1] ∧
    [cellR 3 E IT, cellR 0 E IT].get? 1 = some (cellR 0 E IT) ∧
    (cellR 0 E IT).gid = (cellR 0 E IT).gid ∧
    (cellR 3 E IT).gid ≠ (cellR 0 E IT).gid := by
  rw [connect_nonIdx_eval]
  exact ⟨rfl, rfl, rfl, by norm_num [cellR]⟩

/-- Claim C2 (amended): when the candidate list is gid-indexed — candidate
`i` has global id `i`, which is how the source uses `connect` (with the full
network cell list) — no realized connection has presynaptic gid equal to the
postsynaptic gid: the zeroed probability 0 can never exceed a non-negative
draw. -/
theorem C2_no_self_gid_indexed (streams : ℕ → ℕ → ℝ) (s : ConnConfig ℝ)
    (cellsPre : List (Cell ℝ)) (cellPost : Cell ℝ) (conns : List (Conn ℝ))
    (hgid : ∀ (i : ℕ) (x : Cell ℝ), cellsPre.get? i = some x → x.gid = i)
    (hr : ∀ n, 0 ≤ streams (s.randseed + cellPost.gid) n)
    (hok : connect streams s Real.sqrt Real.exp cellsPre cellPost = .ok conns) :
    ∀ c ∈ conns, c.preid ≠ cellPost.gid ∧
      ∀ x, cellsPre.get? c.preid = some x → x.gid ≠ cellPost.gid := by
  rw [connect] at hok
  obtain ⟨ds, pfs, hd, hp, hlt, hconns⟩ := connectWith_ok_elim hok
  subst hconns
  intro c hc
  obtain ⟨i, hi, x, hx, hpre, -, -, -⟩ := mkConns_mem hc
  have hne : i ≠ cellPost.gid := by
    intro heq
    have h2 := (realizedIdx_mem hi).2
    rw [heq] at h2
    have hset : ((rawProbs s Real.exp cellsPre cellPost pfs ds).set
        cellPost.gid 0).getD cellPost.gid 0 = 0 := by
      rw [List.getD_eq_getElem _ _ (by simpa using hlt)]
      exact List.getElem_set_self ..
    rw [hset] at h2
    exact absurd h2 (not_lt.mpr (hr cellPost.gid))
  rw [hpre]
  exact ⟨hne, fun y hy => by rw [hgid _ y hy]; exact hne⟩

/-- Witness for the amended C2: in the gid-indexed run
`[gid 0, gid 1]` against the post cell of gid 0, the realized connection
(position 1) does not have the postsynaptic gid. -/
theorem C2_witness :
    (⟨1, 0, 2, [1, 0, 1, 1, 0]⟩ : Conn ℝ).preid ≠ (cellR 0 E IT).gid := by
  have hgid : ∀ (i : ℕ) (x : Cell ℝ),
      [cellR 0 E IT, cellR 1 E IT].get? i = some x → x.gid = i := by
    intro i x h
    match i with
    | 0 => rw [show x = cellR 0 E IT from (Option.some.inj h).symm]; rfl
    | 1 => rw [show x = cellR 1 E IT from (Option.some.inj h).symm]; rfl
    | (n + 2) => exact Option.noConfusion h
  have h := C2_no_self_gid_indexed stR s0 [cellR 0 E IT, cellR 1 E IT]
    (cellR 0 E IT) _ hgid (fun n => by norm_num [stR]) connect_gidx_eval
  exact (h _ (List.mem_singleton.mpr rfl)).1

/-- Claim C3: the claim asserts that class pairs with no explicit entry (any
pair involving HTR) have the zero probability function, so no connection is
ever realized for them.  The aliased row construction makes
`connProbs[HTR][IT]` the constant-1 function instead (the lookup ignores the
presynaptic class), `connProbs[IT][HTR]` the ONE-argument default whose call
raises a TypeError, and a full `connect` run realizes a connection from an
HTR presynaptic cell. -/
theorem C3_htr_behavior :
    callProb (connProbs (K := ℝ) HTR IT) (3 / 10) (2 / 5) = .ok 1 ∧
    callProb (connProbs (K := ℝ) IT HTR) (3 / 10) (2 / 5) = .error .typeError ∧
    (connect stR s0 Real.sqrt Real.exp [cellR 1 E IT, cellR 2 E HTR]
        (cellR 0 E IT)).map (fun l => l.map Conn.preid) = .ok [1] ∧
    (cellR 2 E HTR).topClass = HTR := by
  refine ⟨rfl, rfl, ?_, rfl⟩
  rw [connect_htr_eval]
  rfl

/-- Claim C4 counterexample: the per-candidate draws attach to POSITIONS,
not to candidate identities, so permuting the same candidate set changes the
realized set.  With probabilities 9/10 (excitatory candidate) and 1/10
(inhibitory candidate) and constant draw 1/2, the ordering
`[excitatory, inhibitory]` realizes nothing (the excitatory one is silenced
by the positional self-guard at position 0 = post gid), while the swapped
ordering realizes the excitatory candidate at position 1. -/
theorem C4_counterexample :
    (connect stR s4 Real.sqrt Real.exp [cellR 1 E IT, cellR 2 I IT]
        (cellR 0 E IT)).map (fun l => l.map Conn.preid) = .ok [] ∧
    (connect stR s4 Real.sqrt Real.exp [cellR 2 I IT, cellR 1 E IT]
        (cellR 0 E IT)).map (fun l => l.map Conn.preid) = .ok [1] := by
  rw [connect_order1_eval, connect_order2_eval]
  exact ⟨rfl, rfl⟩

/-- Claim C4 (amended): the realized connections depend only on the draw
stream at seed key `randseed + post.gid` (and the ordered candidate list):
changing every other seed's draws changes nothing.  Candidate-order
permutation invariance does NOT hold (see the counterexample). -/
theorem C4_seed_locality (st1 st2 : ℕ → ℕ → ℝ) (s : ConnConfig ℝ)
    (cellsPre : List (Cell ℝ)) (cellPost : Cell ℝ)
    (h : ∀ n, st1 (s.randseed + cellPost.gid) n = st2 (s.randseed + cellPost.gid) n) :
    connect st1 s Real.sqrt Real.exp cellsPre cellPost =
      connect st2 s Real.sqrt Real.exp cellsPre cellPost := by
  unfold connect
  rw [funext h]

/-- Witness for the amended C4: a stream family that is zero at every seed
key other than `randseed + post.gid = 1` produces the same run as the
constant family. -/
theorem C4_witness :
    connect (fun k _ => if k = 1 then (1 : ℝ) / 2 else 0) s0 Real.sqrt Real.exp
        [cellR 0 E IT, cellR 1 E IT] (cellR 0 E IT) =
      connect stR s0 Real.sqrt Real.exp [cellR 0 E IT, cellR 1 E IT] (cellR 0 E IT) :=
  C4_seed_locality _ _ _ _ _ (fun n => by norm_num [s0, cellR, stR])

/-- Claim C5: every realized connection's delay is
`mindelay + distances[preid]/velocity`, which in the non-toroidal case is
`mindelay` plus the Euclidean planar distance between the realized
presynaptic cell and the postsynaptic cell divided by the velocity; since
the distance is a square root, the delay is at least `mindelay` whenever the
velocity is positive.  The weight vector has one entry per receptor. -/
theorem C5_delay (streams : ℕ → ℕ → ℝ) (s : ConnConfig ℝ)
    (cellsPre : List (Cell ℝ)) (cellPost : Cell ℝ) (conns : List (Conn ℝ))
    (hok : connect streams s Real.sqrt Real.exp cellsPre cellPost = .ok conns)
    (hv : 0 < s.velocity) :
    ∀ c ∈ conns, ∃ ds x, distancesOf s Real.sqrt cellsPre cellPost = .ok ds ∧
      cellsPre.get? c.preid = some x ∧
      c.delay = s.mindelay + ds.getD c.preid 0 / s.velocity ∧
      s.mindelay ≤ c.delay ∧
      (s.toroidal = false →
        c.delay = s.mindelay +
          Real.sqrt ((x.xloc - cellPost.xloc) ^ 2 + (x.zloc - cellPost.zloc) ^ 2)
            / s.velocity) ∧
      c.weight.length = 5 := by
  rw [connect] at hok
  obtain ⟨ds, pfs, hd, hp, hlt, hconns⟩ := connectWith_ok_elim hok
  subst hconns
  intro c hc
  obtain ⟨i, hi, x, hx, hpre, hpost, hdel, hw⟩ := mkConns_mem hc
  have hdl : ds.length = cellsPre.length := distancesOf_length hd
  have hpl : pfs.length = cellsPre.length := mapExcept_length hp
  have hilt : i < cellsPre.length := by
    have h1 := (realizedIdx_mem hi).1
    rwa [List.length_set, rawProbs_length hpl hdl] at h1
  have hds : i < ds.length := by rwa [hdl]
  obtain ⟨t, ht⟩ := distancesOf_mem hd _ (getD_mem_of_lt hds)
  have hnn : 0 ≤ ds.getD i 0 := ht ▸ Real.sqrt_nonneg t
  refine ⟨ds, x, hd, ?_, ?_, ?_, ?_, ?_⟩
  · rw [hpre]; exact hx
  · rw [hpre]; exact hdel
  · rw [hdel]
    have : 0 ≤ ds.getD i 0 / s.velocity := div_nonneg hnn hv.le
    linarith
  · intro htor
    rw [hdel]
    unfold distancesOf at hd
    rw [htor] at hd
    simp only [Bool.false_eq_true, if_false] at hd
    injection hd with hd
    rw [← hd, List.getD_eq_getD_get?, List.get?_map, hx]
    rfl
  · rw [hw]
    simp

/-- Witness for C5: the realized connection of the concrete run has delay
2 = mindelay and a length-5 weight vector. -/
theorem C5_witness :
    s0.mindelay ≤ (⟨1, 0, 2, [1, 0, 1, 1, 0]⟩ : Conn ℝ).delay ∧
    (⟨1, 0, 2, [1, 0, 1, 1, 0]⟩ : Conn ℝ).weight.length = 5 := by
  have h := C5_delay stR s0 [cellR 0 E IT, cellR 1 E IT] (cellR 0 E IT) _
    connect_gidx_eval (by norm_num [s0])
  obtain ⟨ds, x, -, -, -, hb, -, hwl⟩ := h _ (List.mem_singleton.mpr rfl)
  exact ⟨hb, hwl⟩

/-- Claim C6: the claim says toroidal distances take the per-axis minimum of
direct and wrap-around differences.  The source compares the two Python
LISTS (`xpath2 < xpath` is a single lexicographic boolean) and copies a
single element at index 0 or 1, so for a candidate at x-distance 1 with
wrap-around 999 the computed planar distance is `sqrt(999² + 1000²)` =
`sqrt 1998001` instead of the per-axis minimum `sqrt(1 + 0) = 1`. -/
theorem C6_toroidal_divergence :
    distancesOf s6 Real.sqrt [c6] post6 = .ok [Real.sqrt 1998001] ∧
    specToroidalDistances s6 [c6] post6 = [1] ∧
    Real.sqrt 1998001 ≠ 1 :=
  ⟨torus_dist_eval, torus_spec_eval, sqrt_1998001_ne_one⟩

/-- Claim C9: the claim says an empty candidate list yields no connections;
the code instead raises an IndexError at the positional self-connection
zeroing `allconnprobs[cellPost.gid] = 0`, because any gid is out of bounds
for the empty probability array. -/
theorem C9_empty_raises :
    connect stR s0 Real.sqrt Real.exp [] (cellR 0 E IT) = .error .indexError := by
  unfold connect connectWith
  have hd : distancesOf s0 Real.sqrt [] (cellR 0 E IT) = .ok [] := by
    norm_num [distancesOf, s0]
  rw [hd, bindE_ok]
  have hp : mapExcept (probFactorFn (cellR 0 E IT)) ([] : List (Cell ℝ)) = .ok [] := by
    norm_num [mapExcept]
  rw [hp, bindE_ok]
  rw [if_neg (by norm_num [rawProbs, cellR])]

end SharedYfrac

